import Mathlib

/-!
Verification of the staff-directory resolution & extraction pipeline
(`src/app.py`) against its specification.

Python strings are modelled by Lean `String` (whose `data` field is the
character list); Python `in` on strings is list-infix on `data`;
`str.strip`, `str.lower`, `str.splitlines` and slicing are modelled by
the executable helpers below.  Text is modelled as LF-separated
(`splitlines` splits on `'\n'`).  `json.loads` (an external library) is
modelled by the executable JSON parser `jsonParse` further down.
-/

namespace App

/-- The whitespace characters stripped by Python `str.strip()` (ASCII part). -/
def isPySpace (c : Char) : Bool :=
  c == ' ' || c == '\t' || c == '\n' || c == '\r' || c == '\x0b' || c == '\x0c'

/-- Strip characters satisfying `p` from both ends of a list. -/
def stripChars (p : Char → Bool) (l : List Char) : List Char :=
  ((l.dropWhile p).reverse.dropWhile p).reverse

/-- Python `str.strip()`. -/
def pyStrip (s : String) : String :=
  ⟨stripChars isPySpace s.data⟩

/-- Python `str.lower()` (ASCII). -/
def pyLower (s : String) : String :=
  ⟨s.data.map Char.toLower⟩

/-- Python `needle in hay` substring test. -/
def pyIn (needle hay : String) : Bool :=
  decide (needle.data <:+: hay.data)

/-- Python `sep.join(parts)`. -/
def pyJoin (sep : String) : List String → String
  | [] => ""
  | [x] => x
  | x :: xs => x ++ sep ++ pyJoin sep xs

/-- Python `str.splitlines()` modelled for LF-separated text. -/
def pySplitlines (s : String) : List String :=
  (s.data.splitOn '\n').map (fun l => (⟨l⟩ : String))

/-- One pass of `re.sub(r"\s+", " ", s)`: each maximal whitespace run
becomes a single space.  The flag records whether the previous character
was part of a whitespace run. -/
def collapseWsGo : Bool → List Char → List Char
  | _, [] => []
  | prevSpace, c :: cs =>
    if isPySpace c then
      (if prevSpace then [] else [' ']) ++ collapseWsGo true cs
    else c :: collapseWsGo false cs

/-- Python `re.sub(r"\s+", " ", s)`. -/
def collapseWs (s : String) : String :=
  ⟨collapseWsGo false s.data⟩

/-- Source `normalize_school_key`: collapse whitespace, strip, lower. -/
def normalize_school_key (school : String) : String :=
  pyLower (pyStrip (collapseWs school))

/-- Source `KNOWN_ATHLETICS_DOMAINS`, in dict insertion order. -/
def KNOWN_ATHLETICS_DOMAINS : List (String × String) :=
  [("Harvard", "gocrimson.com"),
   ("Yale", "yalebulldogs.com"),
   ("Princeton", "goprincetontigers.com"),
   ("Brown", "brownbears.com"),
   ("Dartmouth", "dartmouthsports.com")]

/-- The `for k, d in KNOWN_ATHLETICS_DOMAINS.items()` loop body of
`domain_for_school`: first key whose normalized form is a substring of
the normalized school name wins. -/
def domainLookup : List (String × String) → String → Option String
  | [], _ => none
  | (k, d) :: rest, s =>
    if (normalize_school_key k).data <:+: s.data then some d
    else domainLookup rest s

/-- Source `domain_for_school`. -/
def domain_for_school (school : String) : Option String :=
  domainLookup KNOWN_ATHLETICS_DOMAINS (normalize_school_key school)

/-- Source `SPORT_SEARCH_PATTERNS`. -/
def SPORT_SEARCH_PATTERNS : List (String × List String) :=
  [("Men\x27s Soccer", ["men\x27s soccer", "msoc", "soccer"]),
   ("Women\x27s Soccer", ["women\x27s soccer", "wsoc", "soccer"]),
   ("Men\x27s Basketball", ["men\x27s basketball", "mbb", "basketball"]),
   ("Women\x27s Basketball", ["women\x27s basketball", "wbb", "basketball"]),
   ("Football", ["football"]),
   ("Men\x27s Track & Field", ["men\x27s track", "track and field", "cross country", "mtrack", "mxctf"]),
   ("Women\x27s Track & Field", ["women\x27s track", "track and field", "cross country", "wtrack", "wxctf"]),
   ("Rowing", ["rowing", "crew"]),
   ("Men\x27s Lacrosse", ["men\x27s lacrosse", "mlax", "lacrosse"]),
   ("Women\x27s Lacrosse", ["women\x27s lacrosse", "wlax", "lacrosse"]),
   ("Volleyball", ["volleyball"]),
   ("Swimming", ["swimming", "diving", "swimming and diving"]),
   ("Tennis", ["tennis"]),
   ("Golf", ["golf"]),
   ("Field Hockey", ["field hockey"])]

/-- Python `SPORT_SEARCH_PATTERNS.get(sport, [sport])`. -/
def sportAliases (sport : String) : List String :=
  match SPORT_SEARCH_PATTERNS.find? (fun p => p.1 == sport) with
  | some p => p.2
  | none => [sport]

/-- Source `NEGATIVE_URL_TERMS`. -/
def NEGATIVE_URL_TERMS : List String :=
  ["roster", "schedule", "recap", "news", "article", "tickets", "stats", "boxscore",
   "preview", "camps", "clinic", "recreation", "intramural", "club", "pdf"]

/-- Source `STAFF_URL_HINTS`. -/
def STAFF_URL_HINTS : List String :=
  ["staff", "coaches", "coach", "directory", "staff-directory", "coaching-staff", "staffdir"]

/-- The `sport_or` clause of `build_serper_queries`: up to 3 quoted aliases
joined by OR. -/
def sportOrClause (sport : String) : String :=
  pyJoin " OR " (((sportAliases sport).take 3).map (fun a => "\"" ++ a ++ "\""))

/-- The `negatives` clause of `build_serper_queries`. -/
def negativesClause : String :=
  pyJoin " " ((["roster", "schedule", "recap", "news", "tickets", "stats", "pdf"]).map
    (fun t => "-" ++ t))

/-- The `intent` clause of `build_serper_queries`. -/
def intentClause : String :=
  "(staff OR coaches OR \"coaching staff\" OR directory)"

/-- The `email_hint` clause of `build_serper_queries`. -/
def emailHintClause : String :=
  "(email OR \"@\")"

/-- Source `build_serper_queries`: the domain-scoped query is
emitted first when a domain mapping exists, then the `.edu` query, the
general athletics query, and the URL-pattern query. -/
def build_serper_queries (school sport : String) : List String :=
  let sport_or := sportOrClause sport
  let negatives := negativesClause
  let intent := intentClause
  let email_hint := emailHintClause
  (match domain_for_school school with
   | some dom =>
     ["site:" ++ dom ++ " " ++ intent ++ " " ++ sport_or ++ " " ++ email_hint ++ " " ++ negatives]
   | none => []) ++
  ["site:.edu \"" ++ school ++ "\" " ++ intent ++ " " ++ sport_or ++ " " ++ email_hint ++ " " ++ negatives,
   "\"" ++ school ++ "\" athletics " ++ intent ++ " " ++ sport_or ++ " " ++ email_hint ++ " " ++ negatives,
   "\"" ++ school ++ "\" " ++ sport_or ++ " (inurl:staff OR inurl:coaches OR inurl:directory) " ++ negatives]

/-- A search hit as consumed from the search provider
(`r.get("link")`, `r.get("title")`, `r.get("snippet")`). -/
structure Hit where
  link : String
  title : String
  snippet : String
deriving DecidableEq, Repr

/-- The domain-quality branch of `score_search_result`:
`if dom and dom in link_l: +35 elif ".edu" in link_l: +20
elif any known athletics domain in link_l: +25 else: +5`. -/
def domainQualityScore (school link_l : String) : Int :=
  if (match domain_for_school school with
      | some dom => pyIn dom link_l
      | none => false) then 35
  else if pyIn ".edu" link_l then 20
  else if KNOWN_ATHLETICS_DOMAINS.any (fun kd => pyIn kd.2 link_l) then 25
  else 5

/-- The per-alias sport-relevance loop of `score_search_result`:
+8 if the alias is in the title, +6 if in the snippet, +6 if its
hyphenated form is in the link. -/
def aliasScore (sport title_l snippet_l link_l : String) : Int :=
  (sportAliases sport).foldl
    (fun acc a =>
      let a_l := pyLower a
      acc + (if pyIn a_l title_l then 8 else 0)
          + (if pyIn a_l snippet_l then 6 else 0)
          + (if pyIn (⟨a_l.data.map (fun c => if c == ' ' then '-' else c)⟩) link_l then 6 else 0))
    0

/-- Python `any(h in link_l for h in STAFF_URL_HINTS)`. -/
def staffHintHit (link_l : String) : Bool :=
  STAFF_URL_HINTS.any (fun h => pyIn h link_l)

/-- Python `any(bad in link_l for bad in NEGATIVE_URL_TERMS)`. -/
def negUrlHit (link_l : String) : Bool :=
  NEGATIVE_URL_TERMS.any (fun bad => pyIn bad link_l)

/-- Source `score_search_result`: the sequential `score +=`
updates are written as a sum of the independent contributions, in
source order. -/
def score_search_result (link title snippet school sport : String) : Int :=
  let link_l := pyLower link
  let title_l := pyLower title
  let snippet_l := pyLower snippet
  domainQualityScore school link_l
  + (if staffHintHit link_l then 30 else 0)
  + (if pyIn "staff" title_l || pyIn "coaches" title_l || pyIn "directory" title_l then 15 else 0)
  + aliasScore sport title_l snippet_l link_l
  + (if pyIn "@" snippet_l then 25 else 0)
  - (if negUrlHit link_l then 35 else 0)
  - (if (["recap", "preview", "game", "result"]).any (fun bad => pyIn bad title_l) then 20 else 0)

/-- The tracked `(best_url, best_score)` state of `search_for_staff_page`. -/
abbrev SearchState := Option String × Int

/-- The per-hit update of the `for r in results` loop:
replace the best candidate only when the new score is strictly greater. -/
def hitStep (school sport : String) (b : SearchState) (r : Hit) : SearchState :=
  let s := score_search_result r.link r.title r.snippet school sport
  if s > b.2 then (some r.link, s) else b

/-- The `for r in results` loop of `search_for_staff_page` over one
query's hits. -/
def foldHits (school sport : String) (st : SearchState) (hits : List Hit) : SearchState :=
  hits.foldl (hitStep school sport) st

/-- One query's effect on the tracked state: a failed search
(`except ... continue`) leaves the state unchanged. -/
def queryStep (school sport : String) (st : SearchState) (resp : Option (List Hit)) : SearchState :=
  match resp with
  | none => st
  | some hits => foldHits school sport st hits

/-- The query loop of `search_for_staff_page`.  `resps` is the
environment: the search provider's response to each issued query in
order (`none` models a raised exception).  Returns the final state and
the number of queries actually issued; the loop breaks as soon as
`best_score >= 70` after a query's hits are scored. -/
def searchGo (school sport : String) :
    List String → List (Option (List Hit)) → SearchState → SearchState × Nat
  | [], _, st => (st, 0)
  | _q :: qs, resps, st =>
    let st' := queryStep school sport st (resps.headD none)
    if st'.2 ≥ 70 then (st', 1)
    else
      let rest := searchGo school sport qs (resps.drop 1) st'
      (rest.1, rest.2 + 1)

/-- Source `search_for_staff_page`, parameterized by the search
provider's responses; initial state `(None, -10)`, at most
`SERPER_MAX_QUERIES = 4` queries.  The second component instruments the
number of `serper_search` calls made. -/
def search_for_staff_page (school sport : String) (resps : List (Option (List Hit))) :
    SearchState × Nat :=
  searchGo school sport ((build_serper_queries school sport).take 4) resps (none, -10)

/-- The tracked state after `k` queries if no early exit were taken:
used to phrase when the early-exit threshold has been reached. -/
def noExitState (school sport : String) (resps : List (Option (List Hit))) (st : SearchState) :
    SearchState :=
  resps.foldl (queryStep school sport) st

/-- Membership of a character in the local parts class
`[A-Z0-9._%+-]` of `EMAIL_RE` (with `re.IGNORECASE`). -/
def isEmailLocalChar (c : Char) : Bool :=
  c.isAlpha || c.isDigit || c == '.' || c == '_' || c == '%' || c == '+' || c == '-'

/-- Membership in the domain class `[A-Z0-9.-]` of `EMAIL_RE`. -/
def isEmailDomainChar (c : Char) : Bool :=
  c.isAlpha || c.isDigit || c == '.' || c == '-'

/-- Does the list start with `.` followed by two letters —
the `\.[A-Z]\x7b2,\x7d` tail of `EMAIL_RE` (existence of a match needs
exactly two). -/
def dotAlpha2 : List Char → Bool
  | '.' :: a :: b :: _ => a.isAlpha && b.isAlpha
  | _ => false

/-- Does the list start with `[A-Z0-9.-]+\.[A-Z]\x7b2,\x7d` (some split)? -/
def emailDomainRun : List Char → Bool
  | [] => false
  | c :: rest => isEmailDomainChar c && (dotAlpha2 rest || emailDomainRun rest)

/-- Is there a match of `EMAIL_RE` anywhere in the list
(`EMAIL_RE.search` used as a boolean)?  A match exists exactly when some
local character is followed by `@` and a domain-run tail. -/
def hasEmailAux : List Char → Bool
  | c :: '@' :: rest => (isEmailLocalChar c && emailDomainRun rest) || hasEmailAux ('@' :: rest)
  | _ :: rest => hasEmailAux rest
  | [] => false

/-- Source `EMAIL_RE.search(ln)` as a boolean. -/
def hasEmail (ln : String) : Bool :=
  hasEmailAux ln.data

/-- Source `MAX_CONTENT_CHARS_FOR_GEMINI`. -/
def MAX_CONTENT_CHARS_FOR_GEMINI : Nat := 12000

/-- The staff-role keywords of `compact_relevant_text`. -/
def STAFF_KEYWORDS : List String :=
  ["coach", "coaches", "staff", "director", "coordinator", "assistant", "head coach"]

/-- The trimmed non-empty lines of the raw text
(`[ln.strip() for ln in raw_text.splitlines() if ln.strip()]`). -/
def procLines (raw_text : String) : List String :=
  ((pySplitlines raw_text).map pyStrip).filter (fun ln => ln ≠ "")

/-- The keep-filter of `compact_relevant_text`: a line is retained when
it has an email match, or mentions a sport alias, or a staff keyword. -/
def keepLine (sport_terms : List String) (ln : String) : Bool :=
  let lnl := pyLower ln
  hasEmail ln || sport_terms.any (fun t => pyIn t lnl) || STAFF_KEYWORDS.any (fun k => pyIn k lnl)

/-- Source `compact_relevant_text`. -/
def compact_relevant_text (raw_text : String) (sport : String) : String :=
  if raw_text = "" then ""
  else
    let sport_terms := (sportAliases sport).map pyLower
    let lines := procLines raw_text
    let keep := lines.filter (keepLine sport_terms)
    if (pyJoin "\n" keep).length < 800 then
      ⟨(pyJoin "\n" (lines.take 200)).data.take MAX_CONTENT_CHARS_FOR_GEMINI⟩
    else
      ⟨(pyJoin "\n" keep).data.take MAX_CONTENT_CHARS_FOR_GEMINI⟩

/-- JSON values, as produced by `json.loads` (numbers are modelled as
integers; non-integer numbers do not occur in this development). -/
inductive Json where
  | null
  | bool (b : Bool)
  | num (n : Int)
  | str (s : String)
  | arr (elems : List Json)
  | obj (fields : List (String × Json))
deriving Repr

/-- JSON structural whitespace. -/
def isJsonWs (c : Char) : Bool :=
  c == ' ' || c == '\t' || c == '\n' || c == '\r'

/-- Decoding of a single-character JSON string escape (`\uXXXX` escapes
are outside the modelled sublanguage — no theorem input uses them). -/
def unescapeChar (e : Char) : Option Char :=
  if e == '"' then some '"'
  else if e == '\\' then some '\\'
  else if e == '/' then some '/'
  else if e == 'n' then some '\n'
  else if e == 't' then some '\t'
  else if e == 'r' then some '\r'
  else if e == 'b' then some '\x08'
  else if e == 'f' then some '\x0c'
  else none

/-- Body of a JSON string literal after the opening quote: returns the
decoded content and the remaining input after the closing quote.
Unescaped control characters are rejected (strict mode). -/
def parseStringBody : List Char → Option (List Char × List Char)
  | [] => none
  | '"' :: rest => some ([], rest)
  | '\\' :: esc =>
    match esc with
    | e :: rest =>
      match unescapeChar e with
      | none => none
      | some ch =>
        match parseStringBody rest with
        | none => none
        | some p => some (ch :: p.1, p.2)
    | [] => none
  | c :: rest =>
    if c.toNat < 32 then none
    else
      match parseStringBody rest with
      | none => none
      | some p => some (c :: p.1, p.2)

/-- Digits of a JSON integer (no leading zero unless the number is 0). -/
def parseDigits (l : List Char) : Option (Nat × List Char) :=
  let ds := l.takeWhile Char.isDigit
  let rest := l.drop ds.length
  match ds with
  | [] => none
  | ['0'] => some (0, rest)
  | '0' :: _ :: _ => none
  | _ => some (ds.foldl (fun acc c => acc * 10 + (c.toNat - '0'.toNat)) 0, rest)

mutual

/-- A JSON value (leading whitespace allowed); fuel bounds the call depth. -/
def parseVal : Nat → List Char → Option (Json × List Char)
  | 0, _ => none
  | fuel + 1, l =>
    match l.dropWhile isJsonWs with
    | '"' :: rest => (parseStringBody rest).map (fun p => (Json.str ⟨p.1⟩, p.2))
    | '[' :: rest =>
      (match rest.dropWhile isJsonWs with
       | ']' :: r2 => some (Json.arr [], r2)
       | r2 => (parseArrItems fuel r2).map (fun p => (Json.arr p.1, p.2)))
    | '\x7b' :: rest =>
      (match rest.dropWhile isJsonWs with
       | '\x7d' :: r2 => some (Json.obj [], r2)
       | r2 => (parseObjItems fuel r2).map (fun p => (Json.obj p.1, p.2)))
    | 'n' :: 'u' :: 'l' :: 'l' :: rest => some (Json.null, rest)
    | 't' :: 'r' :: 'u' :: 'e' :: rest => some (Json.bool true, rest)
    | 'f' :: 'a' :: 'l' :: 's' :: 'e' :: rest => some (Json.bool false, rest)
    | '-' :: rest => (parseDigits rest).map (fun p => (Json.num (-(p.1 : Int)), p.2))
    | rest => (parseDigits rest).map (fun p => (Json.num (p.1 : Int), p.2))

/-- Comma-separated array elements up to the closing bracket. -/
def parseArrItems : Nat → List Char → Option (List Json × List Char)
  | 0, _ => none
  | fuel + 1, l => do
    let (v, r) ← parseVal fuel l
    match r.dropWhile isJsonWs with
    | ',' :: r2 => do
      let (vs, r3) ← parseArrItems fuel r2
      some (v :: vs, r3)
    | ']' :: r2 => some ([v], r2)
    | _ => none

/-- Comma-separated `"key": value` fields up to the closing brace. -/
def parseObjItems : Nat → List Char → Option (List (String × Json) × List Char)
  | 0, _ => none
  | fuel + 1, l =>
    match l.dropWhile isJsonWs with
    | '"' :: rest => do
      let (key, r) ← parseStringBody rest
      match r.dropWhile isJsonWs with
      | ':' :: r2 => do
        let (v, r3) ← parseVal fuel r2
        match r3.dropWhile isJsonWs with
        | ',' :: r4 => do
          let (fs, r5) ← parseObjItems fuel r4
          some ((⟨key⟩, v) :: fs, r5)
        | '\x7d' :: r4 => some ([(⟨key⟩, v)], r4)
        | _ => none
      | _ => none
    | _ => none

end

/-- Python `json.loads`: the whole input must be one JSON value (surrounding
whitespace allowed).  Modelled from the external `json` library. -/
def jsonParse (s : String) : Option Json :=
  match parseVal (2 * s.length + 8) s.data with
  | some (v, rest) => if rest.dropWhile isJsonWs = [] then some v else none
  | none => none

mutual

/-- Python `repr` of the Python object a `Json` value decodes to
(string quoting simplified to plain single quotes). -/
def pyReprJson : Json → String
  | Json.null => "None"
  | Json.bool true => "True"
  | Json.bool false => "False"
  | Json.num n => toString n
  | Json.str s => "\x27" ++ s ++ "\x27"
  | Json.arr xs => "[" ++ pyJoin ", " (pyReprList xs) ++ "]"
  | Json.obj kvs => "\x7b" ++ pyJoin ", " (pyReprFields kvs) ++ "\x7d"

/-- Python `repr` of each element of a list. -/
def pyReprList : List Json → List String
  | [] => []
  | x :: xs => pyReprJson x :: pyReprList xs

/-- Python `repr` of each `key: value` entry of a dict. -/
def pyReprFields : List (String × Json) → List String
  | [] => []
  | kv :: kvs => ("\x27" ++ kv.1 ++ "\x27: " ++ pyReprJson kv.2) :: pyReprFields kvs

end

/-- Python `str()` of the Python object a `Json` value decodes to. -/
def pyStr : Json → String
  | Json.str s => s
  | v => pyReprJson v

/-- Python `str.replace("\x60\x60\x60", "")`: remove every (left-to-right,
non-overlapping) occurrence of three backticks. -/
def removeBackticks : List Char → List Char
  | '\x60' :: '\x60' :: '\x60' :: rest => removeBackticks rest
  | c :: rest => c :: removeBackticks rest
  | [] => []

/-- Python `re.search` for the greedy pattern `op[\s\S]*cl`: the match, when one
exists, spans from the first `op` to the last `cl` of the input. -/
def regexSpan (op cl : Char) (l : List Char) : Option (List Char) :=
  match l.indexOf? op, l.reverse.indexOf? cl with
  | some i, some rj =>
    let j := l.length - 1 - rj
    if i < j then some ((l.take (j + 1)).drop i) else none
  | _, _ => none

/-- The fence-stripped working text of `robust_json_extract`:
`text.strip().replace("", "").replace("\x60\x60\x60", "").strip()`
(the first `replace` is the identity). -/
def fenceStripped (text : String) : String :=
  pyStrip ⟨removeBackticks (pyStrip text).data⟩

/-- Source `robust_json_extract`: fence-strip, then direct
parse, then the outermost `[...]` span, then the outermost brace span
wrapped into a one-element array, else `None`. -/
def robust_json_extract (text : String) : Option Json :=
  if text = "" then none
  else
    let t := fenceStripped text
    match jsonParse t with
    | some v => some v
    | none =>
      match (regexSpan '[' ']' t.data).bind (fun sub => jsonParse ⟨sub⟩) with
      | some v => some v
      | none =>
        match (regexSpan '\x7b' '\x7d' t.data).bind (fun sub => jsonParse ⟨sub⟩) with
        | some v => some (Json.arr [v])
        | none => none

/-- The parsing strategies in the order the claim states them: the
direct parse applies to the *full trimmed response* and fence-stripping
happens only from the second strategy on.  Written from the claim text,
to compare against the source behavior. -/
def claimedStrategies (text : String) : List (Option Json) :=
  let t := fenceStripped text
  [jsonParse (pyStrip text),
   (regexSpan '[' ']' t.data).bind (fun sub => jsonParse ⟨sub⟩),
   ((regexSpan '\x7b' '\x7d' t.data).bind (fun sub => jsonParse ⟨sub⟩)).map
     (fun v => Json.arr [v])]

/-- The parser contract as the claim states it: first strategy that
succeeds, else null. -/
def robust_json_extract_claimed (text : String) : Option Json :=
  if text = "" then none
  else (claimedStrategies text).findSome? id

/-- The parsing strategies the source actually applies, in order: all of
them — the direct parse included — operate on the fence-stripped trimmed
text. -/
def amendedStrategies (text : String) : List (Option Json) :=
  let t := fenceStripped text
  [jsonParse t,
   (regexSpan '[' ']' t.data).bind (fun sub => jsonParse ⟨sub⟩),
   ((regexSpan '\x7b' '\x7d' t.data).bind (fun sub => jsonParse ⟨sub⟩)).map
     (fun v => Json.arr [v])]

/-- The amended parser contract: first succeeding strategy of
`amendedStrategies`, else null. -/
def robust_json_extract_amended (text : String) : Option Json :=
  if text = "" then none
  else (amendedStrategies text).findSome? id

/-- A cleaned staff record as built by the validation loop of
`extract_coaches_with_gemini`. -/
structure Record where
  school : String
  coach_name : String
  title : String
  email : Option String
deriving DecidableEq, Repr

/-- Python `c.get(k)` on the dict a JSON object decodes to: with
duplicate keys, `json.loads` keeps the last occurrence. -/
def objGet (fields : List (String × Json)) (k : String) : Option Json :=
  (fields.reverse.find? (fun kv => kv.1 == k)).map (fun kv => kv.2)

/-- The title normalization
`title if title and title.lower() not in ("none"/"null") else "Staff"`. -/
def fixTitle (title : String) : String :=
  if title ≠ "" ∧ ¬ pyLower title ∈ ["none", "null"] then title else "Staff"

/-- The email normalization of the validation loop: a missing key or a
JSON `null` is Python `None`; otherwise the stringified trimmed value is
kept only when non-empty, not a placeholder, and containing `@`. -/
def normEmail (emailField : Option Json) : Option String :=
  match emailField with
  | none => none
  | some Json.null => none
  | some v =>
    let email_s := pyStrip (pyStr v)
    if email_s = "" ∨ pyLower email_s ∈ ["none", "null", "n/a"] ∨ pyIn "@" email_s = false
    then none
    else some email_s

/-- The body of the `for c in coaches` validation loop: non-dict items
are skipped, the trimmed stringified name is rejected when empty, under
3 characters, or a placeholder; title and email are normalized. -/
def cleanItem (school : String) (c : Json) : Option Record :=
  match c with
  | Json.obj fields =>
    let name := pyStrip (pyStr ((objGet fields "coach_name").getD (Json.str "")))
    let title := pyStrip (pyStr ((objGet fields "title").getD (Json.str "")))
    if name = "" ∨ name.length < 3 ∨ pyLower name ∈ ["none", "null", "n/a"] then none
    else some { school := school
                coach_name := name
                title := fixTitle title
                email := normEmail (objGet fields "email") }
  | _ => none

/-- The dedup key `(c["coach_name"].lower(), c["title"].lower())`. -/
def dkey (r : Record) : String × String :=
  (pyLower r.coach_name, pyLower r.title)

/-- The `seen`/`out` dedup loop of `extract_coaches_with_gemini`. -/
def dedupeGo : List Record → List (String × String) → List Record
  | [], _ => []
  | c :: cs, seen =>
    if dkey c ∈ seen then dedupeGo cs seen
    else c :: dedupeGo cs (dkey c :: seen)

/-- De-duplication by `(lowercased name, lowercased title)`. -/
def dedupeRecords (recs : List Record) : List Record :=
  dedupeGo recs []

/-- Python truthiness of the parsed value (`if not coaches: return []`). -/
def pyFalsy : Json → Bool
  | Json.null => true
  | Json.bool b => !b
  | Json.num n => n == 0
  | Json.str s => s == ""
  | Json.arr xs => xs.isEmpty
  | Json.obj kvs => kvs.isEmpty

/-- Python iteration over the parsed value (`for c in coaches`): a list
yields its elements, a dict its keys, a string its characters as
one-character strings; other values raise `TypeError`, which the
surrounding `except` turns into no records. -/
def pyIterate : Json → Option (List Json)
  | Json.arr xs => some xs
  | Json.obj kvs => some (kvs.map (fun kv => Json.str kv.1))
  | Json.str s => some (s.data.map (fun ch => Json.str ⟨[ch]⟩))
  | _ => none

/-- The post-response pure core of `extract_coaches_with_gemini`:
parse the model's text output, validate each item, deduplicate. -/
def extract_clean (school : String) (responseText : String) : List Record :=
  match robust_json_extract responseText with
  | none => []
  | some j =>
    if pyFalsy j then []
    else
      match pyIterate j with
      | none => []
      | some items => dedupeRecords (items.filterMap (cleanItem school))

/-- One output row of `harvest_single_school` (the appended dict). -/
structure Row where
  timestamp : String
  division : String
  conference : String
  school : String
  coach_name : Option String
  title : String
  email : Option String
  source_url : Option String
deriving DecidableEq, Repr

/-- Terminal outcome classification of one organization's pipeline run
(`HarvestOutcome.status` of the spec). -/
inductive HStatus where
  | FOUND
  | NOT_FOUND_NO_PAGE
  | NOT_FOUND_SCRAPE_FAILED
  | NOT_FOUND_EXTRACTION_FAILED
deriving DecidableEq, Repr

/-- The sentinel title documenting each failure reason. -/
def statusTitle : HStatus → String
  | HStatus.FOUND => ""
  | HStatus.NOT_FOUND_NO_PAGE => "NOT FOUND - No staff page"
  | HStatus.NOT_FOUND_SCRAPE_FAILED => "NOT FOUND - Scrape failed"
  | HStatus.NOT_FOUND_EXTRACTION_FAILED => "NOT FOUND - Extraction failed"

/-- The external collaborators of one pipeline run: the search
provider's responses per issued query, the scraper's result per URL
(`none` = both scrape strategies failed), and the generative model's
text response per scraped content (`none` = HTTP error or exception). -/
structure Collaborators where
  serper : List (Option (List Hit))
  scrape : String → Option String
  gemini : String → Option String

/-- Source `extract_coaches_with_gemini`, parameterized by the
generative collaborator; a failed call or unparsable/empty result gives
no records. -/
def extract_coaches_with_gemini (env : Collaborators) (content school sport : String) :
    List Record :=
  if content = "" then []
  else
    match env.gemini content with
    | none => []
    | some txt => extract_clean school txt

/-- The sentinel row emitted on a failed stage: null name and email,
the failure reason as title, the chosen URL when one was known. -/
def sentinelRow (division conference school ts title : String) (src : Option String) : Row :=
  { timestamp := ts, division := division, conference := conference, school := school,
    coach_name := none, title := title, email := none, source_url := src }

/-- Source `harvest_single_school`: search, scrape, extract,
with an early sentinel return at each failed stage.  Python truthiness
of `staff_url` and `content` (empty string is falsy) is modelled
explicitly. -/
def harvest_single_school (env : Collaborators)
    (school sport division conference ts : String) : List Row :=
  let sr := search_for_staff_page school sport env.serper
  match sr.1.1 with
  | none => [sentinelRow division conference school ts "NOT FOUND - No staff page" none]
  | some u =>
    if u = "" then
      [sentinelRow division conference school ts "NOT FOUND - No staff page" none]
    else
      match env.scrape u with
      | none => [sentinelRow division conference school ts "NOT FOUND - Scrape failed" (some u)]
      | some content =>
        if content = "" then
          [sentinelRow division conference school ts "NOT FOUND - Scrape failed" (some u)]
        else
          let coaches := extract_coaches_with_gemini env content school sport
          if coaches.isEmpty then
            [sentinelRow division conference school ts "NOT FOUND - Extraction failed" (some u)]
          else
            coaches.map (fun c =>
              { timestamp := ts, division := division, conference := conference,
                school := c.school, coach_name := some c.coach_name, title := c.title,
                email := c.email, source_url := some u })

/-- The terminal status of one run, classified from the same stage
conditions `harvest_single_school` branches on. -/
def harvest_status (env : Collaborators) (school sport : String) : HStatus :=
  match (search_for_staff_page school sport env.serper).1.1 with
  | none => HStatus.NOT_FOUND_NO_PAGE
  | some u =>
    if u = "" then HStatus.NOT_FOUND_NO_PAGE
    else
      match env.scrape u with
      | none => HStatus.NOT_FOUND_SCRAPE_FAILED
      | some content =>
        if content = "" then HStatus.NOT_FOUND_SCRAPE_FAILED
        else if (extract_coaches_with_gemini env content school sport).isEmpty then
          HStatus.NOT_FOUND_EXTRACTION_FAILED
        else HStatus.FOUND

/-- The chosen URL when one was known: the searched-up URL if truthy. -/
def chosenUrl (env : Collaborators) (school sport : String) : Option String :=
  match (search_for_staff_page school sport env.serper).1.1 with
  | none => none
  | some u => if u = "" then none else some u

/-! Section: Shared helper lemmas -/

theorem dropWhile_head_not {p : Char → Bool} :
    ∀ (l : List Char) (c : Char) (t : List Char), l.dropWhile p = c :: t → p c = false := by
  intro l
  induction l with
  | nil => intro c t h; simp [List.dropWhile] at h
  | cons a as ih =>
    intro c t h
    rw [List.dropWhile_cons] at h
    by_cases hp : p a
    · rw [if_pos hp] at h
      exact ih c t h
    · rw [if_neg hp] at h
      cases h
      exact Bool.of_not_eq_true hp

theorem dropWhile_dropWhile (p : Char → Bool) (l : List Char) :
    (l.dropWhile p).dropWhile p = l.dropWhile p := by
  cases h : l.dropWhile p with
  | nil => simp
  | cons c t =>
    have hc := dropWhile_head_not l c t h
    simp [List.dropWhile_cons, hc]

theorem stripChars_dropWhile (p : Char → Bool) (l : List Char) :
    (stripChars p l).dropWhile p = stripChars p l := by
  have hba : stripChars p l <+: l.dropWhile p := by
    have h1 : (l.dropWhile p).reverse.dropWhile p <:+ (l.dropWhile p).reverse :=
      List.dropWhile_suffix p
    have h2 := List.reverse_prefix.mpr h1
    rwa [List.reverse_reverse] at h2
  cases hc : stripChars p l with
  | nil => simp
  | cons c t =>
    obtain ⟨u, hu⟩ := hba
    rw [hc] at hu
    have hpc : p c = false := dropWhile_head_not l c (t ++ u) hu.symm
    simp [List.dropWhile_cons, hpc]

theorem stripChars_idem (p : Char → Bool) (l : List Char) :
    stripChars p (stripChars p l) = stripChars p l := by
  conv_lhs => rw [stripChars, stripChars_dropWhile p l]
  rw [stripChars, List.reverse_reverse, dropWhile_dropWhile]

theorem pyStrip_idem (s : String) : pyStrip (pyStrip s) = pyStrip s :=
  congrArg String.mk (stripChars_idem isPySpace s.data)

theorem mem_pyJoin_infix (sep x : String) :
    ∀ (l : List String), x ∈ l → x.data <:+: (pyJoin sep l).data := by
  intro l
  induction l with
  | nil => intro h; cases h
  | cons a as ih =>
    intro h
    rcases List.mem_cons.mp h with rfl | hmem
    · cases as with
      | nil => exact List.infix_refl _
      | cons b bs =>
        show x.data <:+: (x ++ sep ++ pyJoin sep (b :: bs)).data
        rw [String.data_append, String.data_append, List.append_assoc]
        exact (List.prefix_append _ _).isInfix
    · cases as with
      | nil => cases hmem
      | cons b bs =>
        refine (ih hmem).trans ?_
        show (pyJoin sep (b :: bs)).data <:+: (a ++ sep ++ pyJoin sep (b :: bs)).data
        rw [String.data_append]
        exact (List.suffix_append _ _).isInfix

/-! Section: C7: the domain-scoped query comes first -/

/-- C7: when the organization has a known-domain mapping, the first
query of `build_serper_queries` is the domain-scoped query (intent
clause, up to 3 quoted aliases joined by OR, email hint, negated noise
terms), and the four queries come in this fixed order. -/
theorem C7_first_query_domain_scoped (school sport dom : String)
    (h : domain_for_school school = some dom) :
    build_serper_queries school sport =
      ["site:" ++ dom ++ " " ++ intentClause ++ " " ++ sportOrClause sport ++ " " ++
         emailHintClause ++ " " ++ negativesClause,
       "site:.edu \"" ++ school ++ "\" " ++ intentClause ++ " " ++ sportOrClause sport ++ " " ++
         emailHintClause ++ " " ++ negativesClause,
       "\"" ++ school ++ "\" athletics " ++ intentClause ++ " " ++ sportOrClause sport ++ " " ++
         emailHintClause ++ " " ++ negativesClause,
       "\"" ++ school ++ "\" " ++ sportOrClause sport ++
         " (inurl:staff OR inurl:coaches OR inurl:directory) " ++ negativesClause] := by
  unfold build_serper_queries
  rw [h]
  rfl

theorem C7_witness :
    domain_for_school "Harvard" = some "gocrimson.com" ∧
    build_serper_queries "Harvard" "Golf" =
      ["site:" ++ "gocrimson.com" ++ " " ++ intentClause ++ " " ++ sportOrClause "Golf" ++ " " ++
         emailHintClause ++ " " ++ negativesClause,
       "site:.edu \"" ++ "Harvard" ++ "\" " ++ intentClause ++ " " ++ sportOrClause "Golf" ++ " " ++
         emailHintClause ++ " " ++ negativesClause,
       "\"" ++ "Harvard" ++ "\" athletics " ++ intentClause ++ " " ++ sportOrClause "Golf" ++ " " ++
         emailHintClause ++ " " ++ negativesClause,
       "\"" ++ "Harvard" ++ "\" " ++ sportOrClause "Golf" ++
         " (inurl:staff OR inurl:coaches OR inurl:directory) " ++ negativesClause] :=
  ⟨by decide, C7_first_query_domain_scoped "Harvard" "Golf" "gocrimson.com" (by decide)⟩

/-! Section: C10: domain mapping is first-match substring containment -/

theorem domainLookup_isSome_iff (l : List (String × String)) (s : String) :
    (domainLookup l s).isSome = true ↔
      ∃ kd ∈ l, (normalize_school_key kd.1).data <:+: s.data := by
  induction l with
  | nil => simp [domainLookup]
  | cons hd rest ih =>
    obtain ⟨k, d⟩ := hd
    by_cases hc : (normalize_school_key k).data <:+: s.data
    · simp only [domainLookup, if_pos hc, Option.isSome_some, true_iff]
      exact ⟨(k, d), List.mem_cons_self _ _, hc⟩
    · simp only [domainLookup, if_neg hc, ih]
      constructor
      · rintro ⟨kd, hmem, hkd⟩
        exact ⟨kd, List.mem_cons_of_mem _ hmem, hkd⟩
      · rintro ⟨kd, hmem, hkd⟩
        rcases List.mem_cons.mp hmem with rfl | hmem2
        · exact absurd hkd hc
        · exact ⟨kd, hmem2, hkd⟩

theorem domainLookup_eq_some_iff (l : List (String × String)) (s d : String) :
    domainLookup l s = some d ↔
      ∃ pre kd post, l = pre ++ kd :: post ∧
        (normalize_school_key kd.1).data <:+: s.data ∧ kd.2 = d ∧
        ∀ kd2 ∈ pre, ¬ (normalize_school_key kd2.1).data <:+: s.data := by
  induction l with
  | nil =>
    constructor
    · intro h; simp [domainLookup] at h
    · rintro ⟨pre, kd, post, hl, -⟩
      exact absurd hl (by simp)
  | cons hd rest ih =>
    obtain ⟨k, d0⟩ := hd
    by_cases hc : (normalize_school_key k).data <:+: s.data
    · simp only [domainLookup, if_pos hc]
      constructor
      · intro h
        have hd0 : d0 = d := by injection h
        exact ⟨[], (k, d0), rest, rfl, hc, hd0, by simp⟩
      · rintro ⟨pre, kd, post, hl, hkd, hd2, hpre⟩
        cases pre with
        | nil =>
          simp only [List.nil_append, List.cons.injEq] at hl
          obtain ⟨hp, -⟩ := hl
          subst hp
          exact congrArg some hd2
        | cons p ps =>
          simp only [List.cons_append, List.cons.injEq] at hl
          obtain ⟨hp, -⟩ := hl
          subst hp
          exact absurd hc (hpre (k, d0) (List.mem_cons_self _ _))
    · simp only [domainLookup, if_neg hc, ih]
      constructor
      · rintro ⟨pre, kd, post, hl, hkd, hd2, hpre⟩
        refine ⟨(k, d0) :: pre, kd, post, by rw [hl]; rfl, hkd, hd2, ?_⟩
        intro kd2 hmem
        rcases List.mem_cons.mp hmem with rfl | hmem2
        · exact hc
        · exact hpre kd2 hmem2
      · rintro ⟨pre, kd, post, hl, hkd, hd2, hpre⟩
        cases pre with
        | nil =>
          simp only [List.nil_append, List.cons.injEq] at hl
          obtain ⟨hp, -⟩ := hl
          subst hp
          exact absurd hkd hc
        | cons p ps =>
          simp only [List.cons_append, List.cons.injEq] at hl
          refine ⟨ps, kd, post, hl.2, hkd, hd2, ?_⟩
          intro kd2 hmem
          exact hpre kd2 (List.mem_cons_of_mem _ hmem)

/-- C10: `domain_for_school` succeeds exactly when some key of the
known-domain table, normalized, occurs as a substring of the normalized
organization name, and it returns the domain of the first such key in
table order. -/
theorem C10_domain_mapping_by_substring (school : String) :
    ((domain_for_school school).isSome = true ↔
      ∃ kd ∈ KNOWN_ATHLETICS_DOMAINS,
        (normalize_school_key kd.1).data <:+: (normalize_school_key school).data) ∧
    (∀ d, domain_for_school school = some d ↔
      ∃ pre kd post, KNOWN_ATHLETICS_DOMAINS = pre ++ kd :: post ∧
        (normalize_school_key kd.1).data <:+: (normalize_school_key school).data ∧
        kd.2 = d ∧
        ∀ kd2 ∈ pre, ¬ (normalize_school_key kd2.1).data <:+: (normalize_school_key school).data) :=
  ⟨domainLookup_isSome_iff _ _, fun d => domainLookup_eq_some_iff _ _ d⟩

theorem C10_witness :
    (domain_for_school "Brownsville Institute").isSome = true :=
  (C10_domain_mapping_by_substring "Brownsville Institute").1.mpr
    ⟨("Brown", "brownbears.com"), by decide, by decide⟩

/-! Section: C6: a negative URL term scores strictly lower -/

/-- C6: two hits identical in every scoring condition except that the
first URL contains a negative/noise term and the second does not — same
domain-quality signal, staff-hint signal, and per-alias URL signals —
give the first a strictly lower score. -/
theorem C6_negative_term_scores_lower
    (school sport l1 l2 title snippet : String)
    (hdom : domainQualityScore school (pyLower l1) = domainQualityScore school (pyLower l2))
    (hhint : staffHintHit (pyLower l1) = staffHintHit (pyLower l2))
    (halias : aliasScore sport (pyLower title) (pyLower snippet) (pyLower l1) =
      aliasScore sport (pyLower title) (pyLower snippet) (pyLower l2))
    (hneg1 : negUrlHit (pyLower l1) = true)
    (hneg2 : negUrlHit (pyLower l2) = false) :
    score_search_result l1 title snippet school sport <
      score_search_result l2 title snippet school sport := by
  unfold score_search_result
  simp only [hdom, hhint, halias, hneg1, hneg2, if_true, if_false, Bool.false_eq_true]
  omega

theorem C6_witness :
    score_search_result "https://ex.org/staff/roster" "t" "s" "Qqq" "Golf" <
      score_search_result "https://ex.org/staff/" "t" "s" "Qqq" "Golf" :=
  C6_negative_term_scores_lower "Qqq" "Golf" "https://ex.org/staff/roster" "https://ex.org/staff/"
    "t" "s" (by decide) (by decide) (by decide) (by decide) (by decide)

/-! Section: C2: parser strategy precedence -/

/-- C2 counterexample: on a response that is a single JSON string
containing a code-fence marker, the source parses the fence-stripped
text in its *first* strategy (getting `"ab"`), while the claimed order —
direct parse of the full trimmed response first — yields the original
string.  The claimed precedence therefore misdescribes the code. -/
theorem C2_counterexample :
    robust_json_extract "\"a\x60\x60\x60b\"" = some (Json.str "ab") ∧
    robust_json_extract_claimed "\"a\x60\x60\x60b\"" = some (Json.str "a\x60\x60\x60b") ∧
    Json.str "ab" ≠ Json.str "a\x60\x60\x60b" := by
  refine ⟨rfl, rfl, ?_⟩
  intro h
  rw [Json.str.injEq] at h
  exact absurd h (by decide)

/-- C2 amended: the code removes code-fence markers and trims *before
every* strategy; it then attempts, in this precedence order, (1) direct
JSON parse of the stripped text, (2) the outermost bracketed substring
as a JSON array, (3) the outermost braced substring as an object wrapped
in a one-element array, and (4) returns null — returning the result of
the first strategy that succeeds. -/
theorem C2_amended_precedence (text : String) :
    robust_json_extract text = robust_json_extract_amended text := by
  unfold robust_json_extract robust_json_extract_amended amendedStrategies
  by_cases h : text = ""
  · simp [h]
  · simp only [if_neg h]
    cases h1 : jsonParse (fenceStripped text) with
    | some v => simp [List.findSome?, h1]
    | none =>
      cases h2 : (regexSpan '[' ']' (fenceStripped text).data).bind
          (fun sub => jsonParse ⟨sub⟩) with
      | some v => simp [List.findSome?, h1, h2]
      | none =>
        cases h3 : (regexSpan '\x7b' '\x7d' (fenceStripped text).data).bind
            (fun sub => jsonParse ⟨sub⟩) with
        | some v => simp [List.findSome?, h1, h2, h3]
        | none => simp [List.findSome?, h1, h2, h3]

/-! Section: C4: no further queries once the threshold is reached -/

theorem searchGo_count_le (school sport : String) :
    ∀ (qs : List String) (resps : List (Option (List Hit))) (st : SearchState) (k : Nat),
      70 ≤ (noExitState school sport (resps.take (k + 1)) st).2 →
      (searchGo school sport qs resps st).2 ≤ k + 1 := by
  intro qs
  induction qs with
  | nil =>
    intro resps st k _
    simp [searchGo]
  | cons q qs ih =>
    intro resps st k h
    simp only [searchGo]
    by_cases he : (queryStep school sport st (resps.headD none)).2 ≥ 70
    · rw [if_pos he]
      omega
    · rw [if_neg he]
      show (searchGo school sport qs (resps.drop 1)
        (queryStep school sport st (resps.headD none))).2 + 1 ≤ k + 1
      cases k with
      | zero =>
        cases resps with
        | nil => exact absurd h he
        | cons r rs => exact absurd h he
      | succ k2 =>
        cases resps with
        | nil => exact absurd h he
        | cons r rs =>
          exact Nat.succ_le_succ (ih rs (queryStep school sport st r) k2 h)

/-- C4: once the tracked best score reaches at least 70 after scoring
all hits of some query (here: after folding the first `k + 1` provider
responses from the initial state), the search loop issues at most those
`k + 1` queries for the organization. -/
theorem C4_early_exit (school sport : String) (resps : List (Option (List Hit))) (k : Nat)
    (h : 70 ≤ (noExitState school sport (resps.take (k + 1)) (none, -10)).2) :
    (search_for_staff_page school sport resps).2 ≤ k + 1 :=
  searchGo_count_le school sport _ resps (none, -10) k h

theorem C4_witness :
    70 ≤ (noExitState "Harvard" "Golf"
        ([some [⟨"https://gocrimson.com/staff/directory", "Staff Directory", "@"⟩]].take 1)
        (none, -10)).2 ∧
    (search_for_staff_page "Harvard" "Golf"
        [some [⟨"https://gocrimson.com/staff/directory", "Staff Directory", "@"⟩]]).2 ≤ 1 :=
  ⟨by decide, C4_early_exit "Harvard" "Golf" _ 0 (by decide)⟩

/-! Section: C5: strict replacement, first-seen wins on ties -/

theorem hitStep_of_le (school sport : String) (st : SearchState) (h : Hit)
    (hle : score_search_result h.link h.title h.snippet school sport ≤ st.2) :
    hitStep school sport st h = st := by
  unfold hitStep
  rw [if_neg (not_lt.mpr hle)]

theorem score_le_snd_hitStep (school sport : String) (st : SearchState) (h : Hit) :
    score_search_result h.link h.title h.snippet school sport ≤ (hitStep school sport st h).2 := by
  unfold hitStep
  by_cases hgt : score_search_result h.link h.title h.snippet school sport > st.2
  · rw [if_pos hgt]
  · rw [if_neg hgt]
    exact le_of_not_lt hgt

theorem snd_le_snd_hitStep (school sport : String) (st : SearchState) (h : Hit) :
    st.2 ≤ (hitStep school sport st h).2 := by
  unfold hitStep
  by_cases hgt : score_search_result h.link h.title h.snippet school sport > st.2
  · rw [if_pos hgt]
    exact le_of_lt hgt
  · rw [if_neg hgt]

theorem snd_le_snd_foldHits (school sport : String) :
    ∀ (hits : List Hit) (st : SearchState), st.2 ≤ (foldHits school sport st hits).2 := by
  intro hits
  induction hits with
  | nil => intro st; exact le_refl _
  | cons h hs ih =>
    intro st
    exact le_trans (snd_le_snd_hitStep school sport st h) (ih (hitStep school sport st h))

theorem searchGo_nil_resps (school sport : String) :
    ∀ (qs : List String) (st : SearchState), st.2 < 70 →
      (searchGo school sport qs [] st).1 = st := by
  intro qs
  induction qs with
  | nil => intro st _; rfl
  | cons q qs ih =>
    intro st hlt
    simp only [searchGo]
    by_cases hge : (queryStep school sport st ([].headD none)).2 ≥ 70
    · exact absurd hge (not_le.mpr hlt)
    · rw [if_neg hge]
      exact ih st hlt

/-- C5: the selection state is only ever replaced by a strictly greater
score (a hit scoring no more than the current best leaves the state
unchanged); appending a hit whose score ties an earlier hit's score
changes nothing, so the first-seen of two equal-scoring hits remains the
selected candidate; and the tracked state starts at `(null, -10)` — with
every query failing, that initial state is returned unchanged. -/
theorem C5_strict_replacement_first_seen_wins (school sport : String) :
    (∀ (st : SearchState) (h : Hit),
        score_search_result h.link h.title h.snippet school sport ≤ st.2 →
        hitStep school sport st h = st) ∧
    (∀ (st : SearchState) (pre mid : List Hit) (h1 h2 : Hit),
        score_search_result h1.link h1.title h1.snippet school sport =
          score_search_result h2.link h2.title h2.snippet school sport →
        foldHits school sport st (pre ++ h1 :: (mid ++ [h2])) =
          foldHits school sport st (pre ++ h1 :: mid)) ∧
    (search_for_staff_page school sport []).1 = (none, -10) := by
  refine ⟨hitStep_of_le school sport, ?_, ?_⟩
  · intro st pre mid h1 h2 hscore
    unfold foldHits
    rw [List.foldl_append, List.foldl_append, List.foldl_cons, List.foldl_cons]
    rw [List.foldl_append, List.foldl_cons, List.foldl_nil]
    apply hitStep_of_le
    rw [← hscore]
    exact le_trans (score_le_snd_hitStep school sport _ h1)
      (snd_le_snd_foldHits school sport mid _)
  · exact searchGo_nil_resps school sport _ (none, -10) (by omega)

theorem C5_witness :
    foldHits "A" "Golf" (none, -10)
        [⟨"https://a.edu/staff/", "t", "s"⟩, ⟨"https://b.edu/staff/", "t", "s"⟩] =
      foldHits "A" "Golf" (none, -10) [⟨"https://a.edu/staff/", "t", "s"⟩] :=
  (C5_strict_replacement_first_seen_wins "A" "Golf").2.1 (none, -10) [] []
    ⟨"https://a.edu/staff/", "t", "s"⟩ ⟨"https://b.edu/staff/", "t", "s"⟩ (by decide)

/-! Section: C9: deduplication keeps the first occurrence, preserves order -/

theorem dedupeGo_sublist :
    ∀ (recs : List Record) (seen : List (String × String)), (dedupeGo recs seen).Sublist recs := by
  intro recs
  induction recs with
  | nil => intro seen; simp [dedupeGo]
  | cons c cs ih =>
    intro seen
    simp only [dedupeGo]
    by_cases hmem : dkey c ∈ seen
    · rw [if_pos hmem]
      exact (ih seen).trans (List.sublist_cons_self c cs)
    · rw [if_neg hmem]
      exact (ih (dkey c :: seen)).cons₂ c

theorem dedupeGo_find (recs : List Record) :
    ∀ (seen : List (String × String)) (r : Record), r ∈ dedupeGo recs seen →
      ¬ dkey r ∈ seen ∧ recs.find? (fun x => dkey x == dkey r) = some r := by
  induction recs with
  | nil => intro seen r h; cases h
  | cons c cs ih =>
    intro seen r h
    simp only [dedupeGo] at h
    by_cases hmem : dkey c ∈ seen
    · rw [if_pos hmem] at h
      obtain ⟨hnot, hfind⟩ := ih seen r h
      have hne : ¬ (dkey c == dkey r) = true := by
        rw [beq_iff_eq]
        intro he
        exact hnot (he ▸ hmem)
      exact ⟨hnot,
        by rw [@List.find?_cons_of_neg Record (fun x => dkey x == dkey r) c cs hne]; exact hfind⟩
    · rw [if_neg hmem] at h
      rcases List.mem_cons.mp h with rfl | h2
      · exact ⟨hmem, @List.find?_cons_of_pos Record (fun x => dkey x == dkey r) r cs
          (beq_self_eq_true (dkey r))⟩
      · obtain ⟨hnot, hfind⟩ := ih (dkey c :: seen) r h2
        have hne : ¬ (dkey c == dkey r) = true := by
          rw [beq_iff_eq]
          intro he
          exact hnot (by rw [← he]; exact List.mem_cons_self _ _)
        refine ⟨fun hin => hnot (List.mem_cons_of_mem _ hin), ?_⟩
        rw [@List.find?_cons_of_neg Record (fun x => dkey x == dkey r) c cs hne]
        exact hfind

theorem dedupeGo_pairwise (recs : List Record) :
    ∀ (seen : List (String × String)),
      (dedupeGo recs seen).Pairwise (fun a b => dkey a ≠ dkey b) := by
  induction recs with
  | nil => intro seen; simp [dedupeGo]
  | cons c cs ih =>
    intro seen
    simp only [dedupeGo]
    by_cases hmem : dkey c ∈ seen
    · rw [if_pos hmem]
      exact ih seen
    · rw [if_neg hmem]
      refine List.Pairwise.cons ?_ (ih (dkey c :: seen))
      intro r hr he
      exact (dedupeGo_find cs (dkey c :: seen) r hr).1 (by rw [← he]; exact List.mem_cons_self _ _)

theorem dedupeGo_complete (recs : List Record) :
    ∀ (seen : List (String × String)) (r : Record), r ∈ recs →
      dkey r ∈ seen ∨ ∃ r2 ∈ dedupeGo recs seen, dkey r2 = dkey r := by
  induction recs with
  | nil => intro seen r h; cases h
  | cons c cs ih =>
    intro seen r h
    simp only [dedupeGo]
    by_cases hmem : dkey c ∈ seen
    · rw [if_pos hmem]
      rcases List.mem_cons.mp h with rfl | h2
      · exact Or.inl hmem
      · exact ih seen r h2
    · rw [if_neg hmem]
      rcases List.mem_cons.mp h with rfl | h2
      · exact Or.inr ⟨r, List.mem_cons_self _ _, rfl⟩
      · rcases ih (dkey c :: seen) r h2 with hin | ⟨r2, hr2, hk⟩
        · rcases List.mem_cons.mp hin with heq | hin2
          · exact Or.inr ⟨c, List.mem_cons_self _ _, heq.symm⟩
          · exact Or.inl hin2
        · exact Or.inr ⟨r2, List.mem_cons_of_mem _ hr2, hk⟩

/-- C9: deduplication returns a sublist of the input (keeping the
original relative order), its `(lowercased name, lowercased title)` keys
are pairwise distinct, every input key is represented, and every kept
record is the *first* input record bearing its key. -/
theorem C9_dedupe_first_occurrence (recs : List Record) :
    (dedupeRecords recs).Sublist recs ∧
    (dedupeRecords recs).Pairwise (fun a b => dkey a ≠ dkey b) ∧
    (∀ r ∈ recs, ∃ r2 ∈ dedupeRecords recs, dkey r2 = dkey r) ∧
    (∀ r ∈ dedupeRecords recs, recs.find? (fun x => dkey x == dkey r) = some r) := by
  refine ⟨dedupeGo_sublist recs [], dedupeGo_pairwise recs [], ?_, ?_⟩
  · intro r hr
    rcases dedupeGo_complete recs [] r hr with hin | hex
    · cases hin
    · exact hex
  · intro r hr
    exact (dedupeGo_find recs [] r hr).2

theorem C9_witness :
    ∃ r2 ∈ dedupeRecords
        [{ school := "S", coach_name := "Bob", title := "Head Coach", email := none },
         { school := "S", coach_name := "BOB", title := "head coach", email := some "b@c.io" }],
      dkey r2 = dkey { school := "S", coach_name := "BOB", title := "head coach",
                       email := some "b@c.io" } :=
  (C9_dedupe_first_occurrence
      [{ school := "S", coach_name := "Bob", title := "Head Coach", email := none },
       { school := "S", coach_name := "BOB", title := "head coach", email := some "b@c.io" }]).2.2.1
    { school := "S", coach_name := "BOB", title := "head coach", email := some "b@c.io" }
    (by decide)

/-! Section: C8: validator invariants -/

theorem emailGuard_invariant (s0 : String) (hs : pyStrip s0 = s0) :
    (if s0 = "" ∨ pyLower s0 ∈ (["none", "null", "n/a"] : List String) ∨ pyIn "@" s0 = false
      then (none : Option String) else some s0) = none ∨
    ∃ s, (if s0 = "" ∨ pyLower s0 ∈ (["none", "null", "n/a"] : List String) ∨ pyIn "@" s0 = false
      then (none : Option String) else some s0) = some s ∧
      pyIn "@" s = true ∧ pyStrip s = s := by
  by_cases hC : s0 = "" ∨ pyLower s0 ∈ (["none", "null", "n/a"] : List String) ∨
      pyIn "@" s0 = false
  · exact Or.inl (if_pos hC)
  · refine Or.inr ⟨s0, if_neg hC, ?_, hs⟩
    push_neg at hC
    cases hat : pyIn "@" s0 with
    | true => rfl
    | false => exact absurd hat hC.2.2

theorem normEmail_invariant (e : Option Json) :
    normEmail e = none ∨
    ∃ s, normEmail e = some s ∧ pyIn "@" s = true ∧ pyStrip s = s := by
  cases e with
  | none => exact Or.inl rfl
  | some v =>
    cases v with
    | null => exact Or.inl rfl
    | bool b => exact emailGuard_invariant _ (pyStrip_idem _)
    | num n => exact emailGuard_invariant _ (pyStrip_idem _)
    | str s => exact emailGuard_invariant _ (pyStrip_idem _)
    | arr xs => exact emailGuard_invariant _ (pyStrip_idem _)
    | obj kvs => exact emailGuard_invariant _ (pyStrip_idem _)

theorem fixTitle_invariant (t : String) :
    ¬ fixTitle t = "" ∧ ¬ pyLower (fixTitle t) ∈ (["none", "null"] : List String) := by
  unfold fixTitle
  by_cases hC : t ≠ "" ∧ ¬ pyLower t ∈ (["none", "null"] : List String)
  · rw [if_pos hC]
    exact ⟨hC.1, hC.2⟩
  · rw [if_neg hC]
    exact ⟨by decide, by decide⟩

theorem cleanItem_invariants (school : String) (c : Json) (r : Record)
    (h : cleanItem school c = some r) :
    (¬ r.coach_name = "" ∧ 3 ≤ r.coach_name.length ∧
       ¬ pyLower r.coach_name ∈ (["none", "null", "n/a"] : List String)) ∧
    (r.email = none ∨ ∃ e, r.email = some e ∧ pyIn "@" e = true ∧ pyStrip e = e) ∧
    (¬ r.title = "" ∧ ¬ pyLower r.title ∈ (["none", "null"] : List String)) := by
  cases c with
  | null => simp [cleanItem] at h
  | bool b => simp [cleanItem] at h
  | num n => simp [cleanItem] at h
  | str s => simp [cleanItem] at h
  | arr xs => simp [cleanItem] at h
  | obj fields =>
    simp only [cleanItem] at h
    split at h
    · cases h
    · rename_i hname
      injection h with h
      subst h
      push_neg at hname
      exact ⟨⟨hname.1, hname.2.1, hname.2.2⟩, normEmail_invariant _, fixTitle_invariant _⟩

/-- C8 counterexample: a raw item whose title is the placeholder `n/a`
keeps that title — the code's placeholder set for titles is only
`none`/`null`, so the claimed replacement by `"Staff"` on `n/a` does not
happen. -/
theorem C8_counterexample :
    extract_clean "X" "[\x7b\"coach_name\": \"Bob Smith\", \"title\": \"n/a\"\x7d]" =
      [{ school := "X", coach_name := "Bob Smith", title := "n/a", email := none }] ∧
    ¬ ("n/a" : String) = "Staff" := ⟨rfl, by decide⟩

/-- C8 amended: every record produced by the validator has a trimmed
name that is non-empty, at least 3 characters, and not a placeholder;
an email that is null or a trimmed string containing `@`; and a title
that is non-empty and not `none`/`null` (the raw title is replaced by
`"Staff"` only when empty or one of `none`/`null` — `n/a` titles are
kept as-is); invalid and non-object items are dropped, never fatal. -/
theorem C8_amended_validator_invariants (school txt : String) (r : Record)
    (hr : r ∈ extract_clean school txt) :
    (¬ r.coach_name = "" ∧ 3 ≤ r.coach_name.length ∧
       ¬ pyLower r.coach_name ∈ (["none", "null", "n/a"] : List String)) ∧
    (r.email = none ∨ ∃ e, r.email = some e ∧ pyIn "@" e = true ∧ pyStrip e = e) ∧
    (¬ r.title = "" ∧ ¬ pyLower r.title ∈ (["none", "null"] : List String)) := by
  unfold extract_clean at hr
  split at hr
  · cases hr
  · split at hr
    · cases hr
    · split at hr
      · cases hr
      · rename_i school2 items hi
        have hmem := (dedupeGo_sublist (items.filterMap (cleanItem school)) []).subset hr
        obtain ⟨c, _, hcr⟩ := List.mem_filterMap.mp hmem
        exact cleanItem_invariants school c r hcr

theorem C8_amended_witness :
    ({ school := "X", coach_name := "Bob Smith", title := "Staff", email := some "a@b.co" }
        : Record) ∈
      extract_clean "X"
        "[\x7b\"coach_name\": \" Bob Smith \", \"title\": \"\", \"email\": \" a@b.co \"\x7d]" ∧
    ((¬ ("Bob Smith" : String) = "" ∧ 3 ≤ ("Bob Smith" : String).length ∧
       ¬ pyLower "Bob Smith" ∈ (["none", "null", "n/a"] : List String)) ∧
     ((some "a@b.co" : Option String) = none ∨
       ∃ e, (some "a@b.co" : Option String) = some e ∧ pyIn "@" e = true ∧ pyStrip e = e) ∧
     (¬ ("Staff" : String) = "" ∧ ¬ pyLower "Staff" ∈ (["none", "null"] : List String))) :=
  ⟨by decide,
   C8_amended_validator_invariants "X"
     "[\x7b\"coach_name\": \" Bob Smith \", \"title\": \"\", \"email\": \" a@b.co \"\x7d]"
     { school := "X", coach_name := "Bob Smith", title := "Staff", email := some "a@b.co" }
     (by decide)⟩

/-! Section: C3: email lines and the compactor -/

set_option maxRecDepth 8000 in
/-- C3 counterexample: a raw text of 200 filler lines followed by a line
holding a valid email.  The retained text is below the 800-character
floor, so the compactor falls back to the first 200 raw lines — and the
email line does not appear anywhere in the output. -/
theorem C3_counterexample :
    "a@b.co" ∈ procLines (pyJoin "\n" (List.replicate 200 "x" ++ ["a@b.co"])) ∧
    hasEmail "a@b.co" = true ∧
    ¬ "a@b.co".data <:+:
      (compact_relevant_text (pyJoin "\n" (List.replicate 200 "x" ++ ["a@b.co"])) "Golf").data := by
  refine ⟨by decide, by decide, ?_⟩
  decide

/-- C3 amended: every trimmed non-empty input line containing a valid
email address appears in the compactor's output, *provided* the
retained text reaches the 800-character floor (no fallback to the first
200 raw lines) and fits the 12,000-character budget (no truncation). -/
theorem C3_amended_email_line_retained (raw_text sport ln : String)
    (hmem : ln ∈ procLines raw_text)
    (hemail : hasEmail ln = true)
    (hfloor : ¬ (pyJoin "\n" ((procLines raw_text).filter
        (keepLine ((sportAliases sport).map pyLower)))).length < 800)
    (hbudget : (pyJoin "\n" ((procLines raw_text).filter
        (keepLine ((sportAliases sport).map pyLower)))).length ≤ MAX_CONTENT_CHARS_FOR_GEMINI) :
    ln.data <:+: (compact_relevant_text raw_text sport).data := by
  have hne : ¬ raw_text = "" := by
    intro he
    rw [he, show procLines "" = [] from rfl] at hmem
    cases hmem
  unfold compact_relevant_text
  rw [if_neg hne]
  simp only []
  rw [if_neg hfloor]
  show ln.data <:+: ((pyJoin "\n" ((procLines raw_text).filter
    (keepLine ((sportAliases sport).map pyLower)))).data.take MAX_CONTENT_CHARS_FOR_GEMINI)
  rw [List.take_of_length_le hbudget]
  exact mem_pyJoin_infix "\n" ln _
    (List.mem_filter.mpr ⟨hmem, by simp [keepLine, hemail]⟩)

set_option maxRecDepth 8000 in
theorem C3_amended_witness :
    "a@b.co.xxxxxxxxxxxxxxxxxxxxxxxxxxxxxxxxxxxxxxxxxxx" ∈
      procLines (pyJoin "\n"
        (List.replicate 20 "a@b.co.xxxxxxxxxxxxxxxxxxxxxxxxxxxxxxxxxxxxxxxxxxx")) ∧
    hasEmail "a@b.co.xxxxxxxxxxxxxxxxxxxxxxxxxxxxxxxxxxxxxxxxxxx" = true ∧
    "a@b.co.xxxxxxxxxxxxxxxxxxxxxxxxxxxxxxxxxxxxxxxxxxx".data <:+:
      (compact_relevant_text
        (pyJoin "\n" (List.replicate 20 "a@b.co.xxxxxxxxxxxxxxxxxxxxxxxxxxxxxxxxxxxxxxxxxxx"))
        "Golf").data :=
  ⟨by decide, by decide,
   C3_amended_email_line_retained
     (pyJoin "\n" (List.replicate 20 "a@b.co.xxxxxxxxxxxxxxxxxxxxxxxxxxxxxxxxxxxxxxxxxxx"))
     "Golf" "a@b.co.xxxxxxxxxxxxxxxxxxxxxxxxxxxxxxxxxxxxxxxxxxx"
     (by decide) (by decide) (by decide) (by decide)⟩

/-! Section: C1: exactly one sentinel record on any non-FOUND outcome -/

/-- C1: whenever the terminal status of one organization's run is not
FOUND — no staff page, both scrape strategies failed, or extraction
yielded no valid records — the returned list is exactly one sentinel
record with null name and email, a title documenting the failure
reason, and the chosen URL as source when one was known (null
otherwise). -/
theorem C1_single_sentinel_on_failure (env : Collaborators)
    (school sport division conference ts : String)
    (h : harvest_status env school sport ≠ HStatus.FOUND) :
    ∃ r : Row, harvest_single_school env school sport division conference ts = [r] ∧
      r.coach_name = none ∧ r.email = none ∧
      r.title = statusTitle (harvest_status env school sport) ∧
      r.source_url = chosenUrl env school sport := by
  simp only [harvest_single_school, harvest_status, chosenUrl]
  cases hs : (search_for_staff_page school sport env.serper).1.1 with
  | none =>
    exact ⟨sentinelRow division conference school ts "NOT FOUND - No staff page" none,
      rfl, rfl, rfl, rfl, rfl⟩
  | some u =>
    by_cases hu : u = ""
    · subst hu
      exact ⟨sentinelRow division conference school ts "NOT FOUND - No staff page" none,
        rfl, rfl, rfl, rfl, rfl⟩
    · simp only [if_neg hu]
      cases hc : env.scrape u with
      | none =>
        exact ⟨sentinelRow division conference school ts "NOT FOUND - Scrape failed" (some u),
          rfl, rfl, rfl, rfl, rfl⟩
      | some content =>
        by_cases hcon : content = ""
        · subst hcon
          exact ⟨sentinelRow division conference school ts "NOT FOUND - Scrape failed" (some u),
            rfl, rfl, rfl, rfl, rfl⟩
        · simp only [if_neg hcon]
          by_cases hemp : (extract_coaches_with_gemini env content school sport).isEmpty = true
          · simp only [if_pos hemp]
            exact ⟨sentinelRow division conference school ts
              "NOT FOUND - Extraction failed" (some u), rfl, rfl, rfl, rfl, rfl⟩
          · exfalso
            apply h
            simp only [harvest_status, hs, if_neg hu, hc, if_neg hcon, if_neg hemp]

theorem C1_witness :
    harvest_status ⟨[], fun _ => none, fun _ => none⟩ "S" "Golf" ≠ HStatus.FOUND ∧
    ∃ r : Row,
      harvest_single_school ⟨[], fun _ => none, fun _ => none⟩ "S" "Golf" "D3" "Conf" "t0" =
        [r] ∧
      r.coach_name = none ∧ r.email = none ∧
      r.title = statusTitle (harvest_status ⟨[], fun _ => none, fun _ => none⟩ "S" "Golf") ∧
      r.source_url = chosenUrl ⟨[], fun _ => none, fun _ => none⟩ "S" "Golf" :=
  ⟨by decide,
   C1_single_sentinel_on_failure ⟨[], fun _ => none, fun _ => none⟩ "S" "Golf" "D3" "Conf" "t0"
     (by decide)⟩

end App
